import Mathlib

/-!
Verification of the Tangerino punch-sync engine (src/app.py).

The embedding models the three core components of the app:

* the Page Fetcher / Sync Driver loop `fetch_punches` (src/app.py lines
  137-250): paginated HTTP fetching with heterogeneous record extraction
  and the termination rules of the `while True` loop;
* the Record Store `save_punches` (lines 96-116): SQLite
  `INSERT OR REPLACE` into the `punches` table keyed by the
  `INTEGER PRIMARY KEY` column `id`, together with the `metadata` table
  holding the `last_sync` watermark;
* the driver `perform_fetch` (lines 373-443): parameter construction,
  the fetch call, and the save/watermark step
  `if all_punches: save_punches(...); set_metadata(conn, "last_sync", now)`.

Python/JSON values are modelled by the inductive type `PyVal`; JSON
numbers are modelled as integers (no claim involves fractional values);
machine wall-clock reads (`time.time() * 1000`) are passed in as an
explicit `now` argument.  Code paths that raise an uncaught Python
exception are modelled with `Except Unit`: an `Except.error ()` result
means the Streamlit script run dies with a traceback, so neither the
store nor the watermark is touched and no value is returned to the UI.
-/

/-- Python values as produced by `resp.json()` (via `json.loads`).
JSON `null` and Python `None` are both `PyVal.none`; JSON numbers are
modelled as integers.  Dict key lists are treated as maps; the concrete
inputs used below always have distinct keys. -/
inductive PyVal where
  | none
  | bool (b : Bool)
  | int (n : Int)
  | str (s : String)
  | list (xs : List PyVal)
  | dict (kvs : List (String × PyVal))

/-- First value stored under a key in a dict's key-value list. -/
def lookupKey : List (String × PyVal) → String → Option PyVal
  | [], _ => Option.none
  | (k, v) :: rest, key => if k = key then Option.some v else lookupKey rest key

/-- Python `d.get(key)` for a dict `d`: the stored value, or `None` when
the key is absent.  Callers are responsible for the receiver actually
being a dict: on any other Python value `.get` raises `AttributeError`,
which is modelled explicitly at each call site (the non-dict branch here
is never reached by the definitions below). -/
def dget (v : PyVal) (key : String) : PyVal :=
  match v with
  | .dict kvs => (lookupKey kvs key).getD PyVal.none
  | _ => PyVal.none

/-- Python truthiness for the values of `PyVal` (used by the `or` chains
in src/app.py lines 103 and 428 and by `if all_punches:` on line 437). -/
def pyTruthy : PyVal → Bool
  | .none => false
  | .bool b => b
  | .int n => n != 0
  | .str s => s != ""
  | .list xs => !xs.isEmpty
  | .dict kvs => !kvs.isEmpty

/-- Python `x is True`: only the boolean singleton `True` qualifies;
`1`, `"true"`, `False` etc. do not (src/app.py line 236). -/
def isPyTrue : PyVal → Bool
  | .bool true => true
  | _ => false

/-- Python `isinstance(x, list) and len(x) == 0` (src/app.py line 241). -/
def isEmptyList : PyVal → Bool
  | .list xs => xs.isEmpty
  | _ => false

/-- The candidate-key probe of src/app.py lines 225-228: the first key in
the given order that is present in the dict with a list value yields its
elements; keys that are absent or hold non-list values are passed over. -/
def firstListKey (v : PyVal) : List String → List PyVal
  | [] => []
  | k :: ks =>
    match v with
    | .dict kvs =>
      match lookupKey kvs k with
      | Option.some (.list xs) => xs
      | _ => firstListKey v ks
    | _ => []

/-- Record extraction for one page (src/app.py lines 214-228), for a body
`data` that is a Python dict (any other body type already raised at the
`data.get("content")` call on line 215, see `pageStep`).  The code takes
`content` when it is a list; the `isinstance(data, list)` branch on line
220 cannot fire for a dict; when `content` is `None` (absent key or null
value) the keys `items`, `data`, `result` are probed in order; a present
non-list non-null `content` yields no records at all. -/
def extractRecords (data : PyVal) : List PyVal :=
  match dget data "content" with
  | .list xs => xs
  | .none => firstListKey data ["items", "data", "result"]
  | _ => []

/-- Outcome of one `requests.get` call (src/app.py line 172): either the
call raised (network-level error, caught on line 173) or it returned a
response with a status code and a body.  `Option.none` for the body
models a `resp.json()` parse failure (caught on line 208). -/
inductive HttpResult where
  | exn
  | resp (status : Nat) (body : Option PyVal)

/-- The query parameters the driver sends (src/app.py lines 373-384):
`lastUpdate` from the UI (or `0` for a full sync) and `size`; the `page`
parameter is set per call inside the loop and is passed separately to
the upstream model.  Remaining optional filters do not affect control
flow and are omitted. -/
structure Params where
  lastUpdate : Int
  size : Nat

/-- How a fetch run ended, abstracting which diagnostic keys of
`last_meta` are set on return: `error = "network_error"` (line 176),
a non-ok status code return (lines 194-203), `json_parse_error`
(lines 208-212), or a `finished_reason` string (lines 237, 242, 247). -/
inductive Outcome where
  | networkError
  | httpError (status : Nat)
  | parseError
  | finished (reason : String)

/-- What `fetch_punches` returns: the accumulated `all_punches`, the
number of HTTP GET calls that were issued, and the outcome. -/
structure FetchResult where
  punches : List PyVal
  calls : Nat
  outcome : Outcome

/-- Result of handling one page inside the `while True` loop, up to but
not including the `page >= max_pages` check: abort/stop the loop with an
outcome, continue with the page's extracted records, or crash the script
(`data.get("content")` raising `AttributeError` on a non-dict body,
src/app.py line 215 — note the `isinstance(data, list)` branch on line
220 is unreachable because line 215 already raised for a list body). -/
inductive StepOut where
  | crash
  | stop (recs : List PyVal) (out : Outcome)
  | next (recs : List PyVal)

/-- One iteration of the fetch loop (src/app.py lines 165-243): network
error return, `not resp.ok` return (requests' `ok` is `status < 400`),
JSON parse-error return, record extraction, the `last is True` break and
the empty-`content` break, in source order. -/
def pageStep (r : HttpResult) : StepOut :=
  match r with
  | .exn => .stop [] .networkError
  | .resp status body =>
    if status < 400 then
      match body with
      | Option.none => .stop [] .parseError
      | Option.some data =>
        match data with
        | PyVal.dict _ =>
          let recs := extractRecords data
          if isPyTrue (dget data "last") then
            .stop recs (.finished "last_flag_true")
          else if isEmptyList (dget data "content") then
            .stop recs (.finished "empty_content")
          else
            .next recs
        | _ => .crash
    else .stop [] (.httpError status)

/-- The fetch loop of `fetch_punches` (src/app.py lines 165-250).  The
Python loop increments `page` and breaks with `max_pages_reached` when
`page >= max_pages`, i.e. it continues past the current page exactly
when `page + 1 < max_pages`.  The loop is re-parameterised for
structural recursion by the remaining budget
`fuel = max_pages - (page + 1)` (saturating Nat subtraction): the budget
is `0` exactly when `page + 1 >= max_pages`, and it decreases by one per
iteration.  `up params page` is the HTTP transport. -/
def fetchGo (up : Params → Nat → HttpResult) (params : Params) :
    Nat → Nat → List PyVal → Nat → Except Unit FetchResult
  | 0, page, acc, calls =>
    match pageStep (up params page) with
    | .crash => Except.error ()
    | .stop recs out => Except.ok ⟨acc ++ recs, calls + 1, out⟩
    | .next recs =>
      Except.ok ⟨acc ++ recs, calls + 1, Outcome.finished "max_pages_reached"⟩
  | fuel + 1, page, acc, calls =>
    match pageStep (up params page) with
    | .crash => Except.error ()
    | .stop recs out => Except.ok ⟨acc ++ recs, calls + 1, out⟩
    | .next recs => fetchGo up params fuel (page + 1) (acc ++ recs) (calls + 1)

/-- src/app.py `fetch_punches` (lines 137-250): start at `page = 0` with
an empty accumulator; the remaining-page budget for page 0 is
`max_pages - 1`. -/
def fetch_punches (up : Params → Nat → HttpResult) (params : Params)
    (maxPages : Nat) : Except Unit FetchResult :=
  fetchGo up params (maxPages - 1) 0 [] 0

/-- One row of the SQLite `punches` table (src/app.py lines 66-76).
`id` is the `INTEGER PRIMARY KEY` (rowid alias); the remaining columns
store whatever Python value was bound (`raw` stands for the
`json.dumps(p)` text, which determines and is determined by `p`). -/
structure PunchRow where
  id : Int
  employeeId : PyVal
  date : PyVal
  status : PyVal
  lastModifiedDate : PyVal
  raw : PyVal
  saved_at : Int

/-- The `punches` table.  A rowid table is a b-tree ordered by the
integer key, so the table state is represented as the list of rows in
increasing `id` order (which is also the `SELECT` scan order). -/
abbrev Store := List PunchRow

/-- `INSERT OR REPLACE` keyed by `id` into the id-ordered row list:
any existing row with the same id is replaced in place. -/
def upsertRow : Store → PunchRow → Store
  | [], r => [r]
  | q :: qs, r =>
    if r.id < q.id then r :: q :: qs
    else if r.id = q.id then r :: qs
    else q :: upsertRow qs r

/-- The rowid SQLite assigns when `NULL` is inserted into an
`INTEGER PRIMARY KEY` column: one more than the largest rowid in the
table, or `1` for an empty table. -/
def nextRowId (st : Store) : Int :=
  match st.map PunchRow.id with
  | [] => 1
  | x :: xs => xs.foldl max x + 1

/-- Lookup of the row stored under a given id. -/
def lookupRow : Store → Int → Option PunchRow
  | [], _ => Option.none
  | q :: qs, k => if q.id = k then Option.some q else lookupRow qs k

/-- The `punches` table is ordered by its integer primary key. -/
def StoreSorted (st : Store) : Prop :=
  List.Pairwise (fun a b => a.id < b.id) st

/-- `emp = p.get("employeeId") or (p.get("employee") or ...).get("id")`
(src/app.py line 103).  Python `or` takes the left operand when it is
truthy, so a falsy top-level `employeeId` (absent, null, `0`, `""`, ...)
falls through to the nested lookup; a falsy `employee` value is replaced
by an empty dict; a truthy non-dict `employee` makes `.get` raise
`AttributeError`, which the per-record `except` catches, skipping the
record. -/
def resolveEmp (p : PyVal) : Except Unit PyVal :=
  let top := dget p "employeeId"
  if pyTruthy top then Except.ok top
  else
    let e := dget p "employee"
    let e2 := if pyTruthy e then e else PyVal.dict []
    match e2 with
    | .dict _ => Except.ok (dget e2 "id")
    | _ => Except.error ()

/-- One iteration of the save loop in `save_punches` (src/app.py lines
100-114).  Any exception inside the loop body is caught, logged and the
record skipped (`saved` not incremented): a non-dict record (`p.get`
raises), a truthy non-dict `employee`, or an `id` value the
`INTEGER PRIMARY KEY` column rejects with a datatype mismatch (e.g. a
non-numeric string; string ids occur in no claim and are modelled as
skipped).  A `None` id makes SQLite assign a fresh rowid past the
current maximum; a Python bool id is stored as the integer 0 or 1. -/
def saveOne (st : Store) (p : PyVal) (now : Int) : Store × Bool :=
  match p with
  | .dict _ =>
    match resolveEmp p with
    | Except.error _ => (st, false)
    | Except.ok emp =>
      let row := fun (i : Int) =>
        PunchRow.mk i emp (dget p "date") (dget p "status")
          (dget p "lastModifiedDate") p now
      match dget p "id" with
      | .int n => (upsertRow st (row n), true)
      | .bool b => (upsertRow st (row (if b then 1 else 0)), true)
      | .none => (st ++ [row (nextRowId st)], true)
      | _ => (st, false)
  | _ => (st, false)

/-- The `for p in punches` loop of `save_punches` (src/app.py lines
100-114), threading the table state and the `saved` counter. -/
def saveLoop (now : Int) : Store → List PyVal → Nat → Store × Nat
  | st, [], saved => (st, saved)
  | st, p :: ps, saved =>
    match saveOne st p now with
    | (st2, true) => saveLoop now st2 ps (saved + 1)
    | (st2, false) => saveLoop now st2 ps saved

/-- src/app.py `save_punches` (lines 96-116): iterate the save loop over
the record list, counting successfully saved rows; `now` is the single
`int(time.time() * 1000)` read on line 98 shared by the whole batch. -/
def save_punches (st : Store) (punches : List PyVal) (now : Int) : Store × Nat :=
  saveLoop now st punches 0

/-- The persisted state the driver touches: the `punches` table and the
`metadata` row `last_sync` (absent before the first write). -/
structure SyncState where
  store : Store
  watermark : Option Int

/-- Parameter construction in `perform_fetch` (src/app.py lines
375-380): a full sync overwrites `lastUpdate` with `0`; an incremental
sync keeps the UI-supplied `lastUpdate` value from `params_base`
(line 314); `size` is set to the UI page size. -/
def syncParams (useFull : Bool) (uiLastUpdate : Int) (pageSize : Nat) : Params :=
  { lastUpdate := if useFull then 0 else uiLastUpdate, size := pageSize }

/-- src/app.py `perform_fetch` (lines 373-443): build the params, run
`fetch_punches`, and then — lines 436-440 — `if all_punches:` save the
records and write `metadata["last_sync"] = now`, for every outcome of
the fetch; when `all_punches` is empty neither the table nor the
watermark is touched.  A crash inside the fetch propagates (no state
change, no return value). -/
def perform_fetch (up : Params → Nat → HttpResult) (useFull : Bool)
    (uiLastUpdate : Int) (pageSize maxPages : Nat) (s : SyncState)
    (now : Int) : Except Unit (SyncState × FetchResult) :=
  match fetch_punches up (syncParams useFull uiLastUpdate pageSize) maxPages with
  | Except.error e => Except.error e
  | Except.ok fr =>
    if fr.punches.isEmpty then Except.ok (s, fr)
    else
      Except.ok ({ store := (save_punches s.store fr.punches now).1,
                   watermark := Option.some now }, fr)

/-- A fetch outcome that §4.1 rules 1-3 of the spec call an abort:
network error, non-success HTTP status, or JSON parse error. -/
def abortOutcome (o : Outcome) : Prop :=
  o = Outcome.networkError ∨ o = Outcome.parseError ∨ ∃ s, o = Outcome.httpError s

/-- An HTTP page reply that keeps the fetch loop running: a successful
status, a dict body, a `last` field that is not the boolean `True`, and
at least one extracted record (which also rules out the empty-`content`
break). -/
def goodPage (r : HttpResult) : Prop :=
  ∃ status kvs, r = HttpResult.resp status (Option.some (PyVal.dict kvs)) ∧
    status < 400 ∧
    isPyTrue (dget (PyVal.dict kvs) "last") = false ∧
    extractRecords (PyVal.dict kvs) ≠ []

/-- A record the store can upsert by identity: a dict whose `id` value
is an integer. -/
def keyedRec (p : PyVal) : Prop :=
  (∃ kvs, p = PyVal.dict kvs) ∧ ∃ n : Int, dget p "id" = PyVal.int n

/-- The row `saveOne` writes for a record, when it writes one through
the upsert path: the record must be a dict, resolve an employee id
without raising, and carry an integer `id`. -/
def saveRow (p : PyVal) (now : Int) : Option PunchRow :=
  match p with
  | .dict _ =>
    match resolveEmp p with
    | Except.ok emp =>
      match dget p "id" with
      | .int n =>
        Option.some
          (PunchRow.mk n emp (dget p "date") (dget p "status")
            (dget p "lastModifiedDate") p now)
      | _ => Option.none
    | Except.error _ => Option.none
  | _ => Option.none

/-- Folding a list of rows into the table by `INSERT OR REPLACE`. -/
def applyRows (st : Store) (rs : List PunchRow) : Store :=
  rs.foldl upsertRow st

/-- The last row in a list carrying a given id (last write wins). -/
def lastWith : List PunchRow → Int → Option PunchRow
  | [], _ => Option.none
  | r :: rs, k =>
    match lastWith rs k with
    | Option.some q => Option.some q
    | Option.none => if r.id = k then Option.some r else Option.none

/-- Mock upstream for the C1 counterexample: page 0 delivers one record,
page 1 raises a network error. -/
def upNetAfterOne : Params → Nat → HttpResult := fun _ page =>
  if page = 0 then
    HttpResult.resp 200
      (Option.some (PyVal.dict [("content", PyVal.list [PyVal.dict [("id", PyVal.int 1)]])]))
  else HttpResult.exn

/-- Mock upstream for the C2 counterexample: it raises a network error
exactly when it receives `lastUpdate = 5`, and otherwise serves a single
last page; which branch fires reveals the `lastUpdate` actually sent. -/
def upProbeLastUpdate : Params → Nat → HttpResult := fun pr _ =>
  if pr.lastUpdate = 5 then HttpResult.exn
  else HttpResult.resp 200 (Option.some (PyVal.dict [("last", PyVal.bool true)]))

/-- Mock upstream for the C3 counterexample: page 0 is a successful page
whose `content` is an empty list. -/
def upEmptyFirst : Params → Nat → HttpResult := fun _ _ =>
  HttpResult.resp 200 (Option.some (PyVal.dict [("content", PyVal.list [])]))

/-- Mock upstream for the C4 code-bug theorem: a successful response
whose JSON body is a bare list. -/
def upListBody : Params → Nat → HttpResult := fun _ _ =>
  HttpResult.resp 200 (Option.some (PyVal.list [PyVal.dict [("id", PyVal.int 1)]]))

/-- Mock upstream for the C5 counterexample: records arrive under the
`items` key; page 0 has one record, every later page has zero records
and no `last` flag. -/
def upItemsThenEmpty : Params → Nat → HttpResult := fun _ page =>
  if page = 0 then
    HttpResult.resp 200 (Option.some (PyVal.dict [("items", PyVal.list [PyVal.int 1])]))
  else HttpResult.resp 200 (Option.some (PyVal.dict [("items", PyVal.list [])]))

/-- Mock upstream for the C5 witness: records arrive under `content`;
page 0 has one record, every later page has an empty `content` list. -/
def upContentThenEmpty : Params → Nat → HttpResult := fun _ page =>
  if page = 0 then
    HttpResult.resp 200 (Option.some (PyVal.dict [("content", PyVal.list [PyVal.int 1])]))
  else HttpResult.resp 200 (Option.some (PyVal.dict [("content", PyVal.list [])]))

/-- Mock upstream for the C6 counterexample: every page reports
`totalPages = 1`, no `last` flag, and a non-empty `content` list. -/
def upTotalPagesOne : Params → Nat → HttpResult := fun _ page =>
  HttpResult.resp 200
    (Option.some (PyVal.dict
      [("content", PyVal.list [PyVal.int (page : Int)]),
       ("totalPages", PyVal.int 1)]))

/-- Mock upstream for the C6 witness: a single page flagged last. -/
def upOneLastPage : Params → Nat → HttpResult := fun _ _ =>
  HttpResult.resp 200 (Option.some (PyVal.dict [("last", PyVal.bool true)]))

/-- Mock upstream for the C7 witness: never signals completion, never
returns an empty page. -/
def upNeverEnds : Params → Nat → HttpResult := fun _ page =>
  HttpResult.resp 200
    (Option.some (PyVal.dict [("content", PyVal.list [PyVal.int (page : Int)])]))

/-- Mock upstream for the C10 witness: page 0 carries the string
`"true"` (not the boolean) in its `last` field plus one record, page 1
raises a network error — reaching the network error proves page 1 was
fetched. -/
def upStringTrue : Params → Nat → HttpResult := fun _ page =>
  if page = 0 then
    HttpResult.resp 200
      (Option.some (PyVal.dict
        [("last", PyVal.str "true"), ("content", PyVal.list [PyVal.int 3])]))
  else HttpResult.exn

/-- Mock upstream that always raises a network error. -/
def upAlwaysExn : Params → Nat → HttpResult := fun _ _ => HttpResult.exn


/-- Unfolding equation for the last budgeted iteration of the loop. -/
theorem fetchGo_zero (up : Params → Nat → HttpResult) (params : Params)
    (page : Nat) (acc : List PyVal) (calls : Nat) :
    fetchGo up params 0 page acc calls =
      match pageStep (up params page) with
      | .crash => Except.error ()
      | .stop recs out => Except.ok ⟨acc ++ recs, calls + 1, out⟩
      | .next recs =>
        Except.ok ⟨acc ++ recs, calls + 1, Outcome.finished "max_pages_reached"⟩ := by
  simp [fetchGo]

/-- Unfolding equation for a non-final iteration of the loop. -/
theorem fetchGo_succ (up : Params → Nat → HttpResult) (params : Params)
    (fuel page : Nat) (acc : List PyVal) (calls : Nat) :
    fetchGo up params (fuel + 1) page acc calls =
      match pageStep (up params page) with
      | .crash => Except.error ()
      | .stop recs out => Except.ok ⟨acc ++ recs, calls + 1, out⟩
      | .next recs => fetchGo up params fuel (page + 1) (acc ++ recs) (calls + 1) := by
  simp [fetchGo]

/-- The only `finished_reason` strings a `stop` step can carry. -/
theorem pageStep_stop_reason (r : HttpResult) (recs : List PyVal) (s : String)
    (h : pageStep r = StepOut.stop recs (Outcome.finished s)) :
    s = "last_flag_true" ∨ s = "empty_content" := by
  cases r with
  | exn => simp [pageStep] at h
  | resp status body =>
    by_cases hok : status < 400
    · cases body with
      | none => simp [pageStep, hok] at h
      | some d =>
        cases d with
        | dict kvs =>
          by_cases h1 : isPyTrue (dget (PyVal.dict kvs) "last")
          · simp [pageStep, hok, h1] at h
            exact Or.inl h.2.symm
          · by_cases h2 : isEmptyList (dget (PyVal.dict kvs) "content")
            · simp [pageStep, hok, h1, h2] at h
              exact Or.inr h.2.symm
            · simp [pageStep, hok, h1, h2] at h
        | none => simp [pageStep, hok] at h
        | bool b => simp [pageStep, hok] at h
        | int n => simp [pageStep, hok] at h
        | str s2 => simp [pageStep, hok] at h
        | list xs => simp [pageStep, hok] at h
    · simp [pageStep, hok] at h

/-- Every run of the fetch loop that returns issues at least one more
HTTP call than were already counted. -/
theorem fetchGo_calls_pos (up : Params → Nat → HttpResult) (params : Params) :
    ∀ (fuel page : Nat) (acc : List PyVal) (calls : Nat) (fr : FetchResult),
      fetchGo up params fuel page acc calls = Except.ok fr → calls + 1 ≤ fr.calls := by
  intro fuel
  induction fuel with
  | zero =>
    intro page acc calls fr h
    rw [fetchGo_zero] at h
    rcases hs : pageStep (up params page) with _ | ⟨recs, out⟩ | recs <;>
        rw [hs] at h
    · exact absurd h (by simp)
    · injection h with h2
      subst h2
      show calls + 1 ≤ calls + 1
      omega
    · injection h with h2
      subst h2
      show calls + 1 ≤ calls + 1
      omega
  | succ fuel ih =>
    intro page acc calls fr h
    rw [fetchGo_succ] at h
    rcases hs : pageStep (up params page) with _ | ⟨recs, out⟩ | recs <;>
        rw [hs] at h
    · exact absurd h (by simp)
    · injection h with h2
      subst h2
      show calls + 1 ≤ calls + 1
      omega
    · have := ih (page + 1) (acc ++ recs) (calls + 1) fr h
      omega

/-- With remaining budget `fuel`, the loop issues at most `fuel + 1`
further HTTP calls. -/
theorem fetchGo_calls_le (up : Params → Nat → HttpResult) (params : Params) :
    ∀ (fuel page : Nat) (acc : List PyVal) (calls : Nat) (fr : FetchResult),
      fetchGo up params fuel page acc calls = Except.ok fr →
      fr.calls ≤ calls + fuel + 1 := by
  intro fuel
  induction fuel with
  | zero =>
    intro page acc calls fr h
    rw [fetchGo_zero] at h
    rcases hs : pageStep (up params page) with _ | ⟨recs, out⟩ | recs <;>
        rw [hs] at h
    · exact absurd h (by simp)
    · injection h with h2
      subst h2
      show calls + 1 ≤ calls + 0 + 1
      omega
    · injection h with h2
      subst h2
      show calls + 1 ≤ calls + 0 + 1
      omega
  | succ fuel ih =>
    intro page acc calls fr h
    rw [fetchGo_succ] at h
    rcases hs : pageStep (up params page) with _ | ⟨recs, out⟩ | recs <;>
        rw [hs] at h
    · exact absurd h (by simp)
    · injection h with h2
      subst h2
      show calls + 1 ≤ calls + (fuel + 1) + 1
      omega
    · have := ih (page + 1) (acc ++ recs) (calls + 1) fr h
      omega

/-- The only `finished_reason` strings the loop ever produces: the
source has no `totalPages`-based stop. -/
theorem fetchGo_reason (up : Params → Nat → HttpResult) (params : Params) :
    ∀ (fuel page : Nat) (acc : List PyVal) (calls : Nat) (fr : FetchResult),
      fetchGo up params fuel page acc calls = Except.ok fr →
      ∀ r, fr.outcome = Outcome.finished r →
      r = "last_flag_true" ∨ r = "empty_content" ∨ r = "max_pages_reached" := by
  intro fuel
  induction fuel with
  | zero =>
    intro page acc calls fr h r hr
    rw [fetchGo_zero] at h
    rcases hs : pageStep (up params page) with _ | ⟨recs, out⟩ | recs <;>
        rw [hs] at h
    · exact absurd h (by simp)
    · injection h with h2
      subst h2
      have hout : out = Outcome.finished r := hr
      rw [hout] at hs
      rcases pageStep_stop_reason _ _ _ hs with h3 | h3
      · exact Or.inl h3
      · exact Or.inr (Or.inl h3)
    · injection h with h2
      subst h2
      have hout : Outcome.finished "max_pages_reached" = Outcome.finished r := hr
      injection hout with h4
      exact Or.inr (Or.inr h4.symm)
  | succ fuel ih =>
    intro page acc calls fr h r hr
    rw [fetchGo_succ] at h
    rcases hs : pageStep (up params page) with _ | ⟨recs, out⟩ | recs <;>
        rw [hs] at h
    · exact absurd h (by simp)
    · injection h with h2
      subst h2
      have hout : out = Outcome.finished r := hr
      rw [hout] at hs
      rcases pageStep_stop_reason _ _ _ hs with h3 | h3
      · exact Or.inl h3
      · exact Or.inr (Or.inl h3)
    · exact ih (page + 1) (acc ++ recs) (calls + 1) fr h r hr

/-- A page with at least one extracted record cannot trigger the
empty-`content` break. -/
theorem contentNotEmpty (kvs : List (String × PyVal))
    (h : extractRecords (PyVal.dict kvs) ≠ []) :
    isEmptyList (dget (PyVal.dict kvs) "content") = false := by
  rcases hc : dget (PyVal.dict kvs) "content" with _ | b | n | s | xs | kk <;>
      simp [isEmptyList]
  intro hxs
  rw [extractRecords, hc, hxs] at h
  exact h rfl

/-- Against an upstream whose every page is a successful non-last page
with at least one record, the loop consumes its whole page budget and
stops with `max_pages_reached`, having accumulated a non-empty batch. -/
theorem fetchGo_good (up : Params → Nat → HttpResult) (params : Params)
    (hgood : ∀ q, goodPage (up params q)) :
    ∀ (fuel page : Nat) (acc : List PyVal) (calls : Nat),
      ∃ rest, rest ≠ [] ∧
        fetchGo up params fuel page acc calls =
          Except.ok ⟨acc ++ rest, calls + fuel + 1,
            Outcome.finished "max_pages_reached"⟩ := by
  intro fuel
  induction fuel with
  | zero =>
    intro page acc calls
    obtain ⟨status, kvs, hup, hok, hlast, hne⟩ := hgood page
    refine ⟨extractRecords (PyVal.dict kvs), hne, ?_⟩
    rw [fetchGo_zero, hup]
    simp [pageStep, hok, hlast, contentNotEmpty kvs hne]
  | succ fuel ih =>
    intro page acc calls
    obtain ⟨status, kvs, hup, hok, hlast, hne⟩ := hgood page
    obtain ⟨rest, hrne, hrec⟩ :=
      ih (page + 1) (acc ++ extractRecords (PyVal.dict kvs)) (calls + 1)
    refine ⟨extractRecords (PyVal.dict kvs) ++ rest, by simp [hne], ?_⟩
    rw [fetchGo_succ, hup]
    simp only [pageStep, if_pos hok, hlast, Bool.false_eq_true, if_false,
      contentNotEmpty kvs hne]
    rw [hrec]
    have harith : calls + 1 + fuel + 1 = calls + (fuel + 1) + 1 := by omega
    rw [harith, List.append_assoc]

/-- Lookup after an `INSERT OR REPLACE`: the new row shadows exactly its
own id. -/
theorem lookup_upsertRow (st : Store) (r : PunchRow) (k : Int) :
    lookupRow (upsertRow st r) k =
      if r.id = k then Option.some r else lookupRow st k := by
  induction st with
  | nil => simp [upsertRow, lookupRow]
  | cons q qs ih =>
    by_cases h1 : r.id < q.id
    · simp only [upsertRow, if_pos h1, lookupRow]
    · by_cases h2 : r.id = q.id
      · simp only [upsertRow, if_neg h1, if_pos h2, lookupRow]
        rcases eq_or_ne r.id k with h3 | h3
        · rw [if_pos h3, if_pos (h2 ▸ h3)]
        · simp only [if_neg h3, if_neg (show ¬ q.id = k by omega)]
      · simp only [upsertRow, if_neg h1, if_neg h2, lookupRow, ih]
        rcases eq_or_ne q.id k with h3 | h3
        · rw [if_pos h3, if_neg (show ¬ r.id = k by omega), if_pos h3]
        · rw [if_neg h3]
          rcases eq_or_ne r.id k with h4 | h4
          · rw [if_pos h4, if_pos h4]
          · rw [if_neg h4, if_neg h4, if_neg h3]

/-- Members of the table after an upsert are the new row or old rows. -/
theorem mem_upsertRow (st : Store) (r x : PunchRow)
    (h : x ∈ upsertRow st r) : x = r ∨ x ∈ st := by
  induction st with
  | nil =>
    simp only [upsertRow] at h
    simp at h
    exact Or.inl h
  | cons q qs ih =>
    by_cases h1 : r.id < q.id
    · simp only [upsertRow, if_pos h1] at h
      simp at h
      rcases h with h | h | h
      · exact Or.inl h
      · exact Or.inr (by simp [h])
      · exact Or.inr (by simp [h])
    · by_cases h2 : r.id = q.id
      · simp only [upsertRow, if_neg h1, if_pos h2] at h
        simp at h
        rcases h with h | h
        · exact Or.inl h
        · exact Or.inr (by simp [h])
      · simp only [upsertRow, if_neg h1, if_neg h2] at h
        simp at h
        rcases h with h | h
        · exact Or.inr (by simp [h])
        · rcases ih h with h3 | h3
          · exact Or.inl h3
          · exact Or.inr (by simp [h3])

/-- `INSERT OR REPLACE` keeps the table ordered by primary key. -/
theorem sorted_upsertRow (st : Store) (r : PunchRow)
    (h : StoreSorted st) : StoreSorted (upsertRow st r) := by
  induction st with
  | nil =>
    simp [upsertRow, StoreSorted]
  | cons q qs ih =>
    rw [StoreSorted, List.pairwise_cons] at h
    obtain ⟨hq, hqs⟩ := h
    by_cases h1 : r.id < q.id
    · simp only [upsertRow, if_pos h1]
      rw [StoreSorted, List.pairwise_cons]
      refine ⟨?_, ?_⟩
      · intro x hx
        rcases (List.mem_cons).1 hx with h3 | h3
        · rw [h3]
          exact h1
        · exact lt_trans h1 (hq x h3)
      · rw [List.pairwise_cons]
        exact ⟨hq, hqs⟩
    · by_cases h2 : r.id = q.id
      · simp only [upsertRow, if_neg h1, if_pos h2]
        rw [StoreSorted, List.pairwise_cons]
        refine ⟨?_, hqs⟩
        intro x hx
        rw [h2]
        exact hq x hx
      · simp only [upsertRow, if_neg h1, if_neg h2]
        rw [StoreSorted, List.pairwise_cons]
        refine ⟨?_, ih hqs⟩
        intro x hx
        rcases mem_upsertRow qs r x hx with h3 | h3
        · rw [h3]
          omega
        · exact hq x h3

/-- A key absent from every row looks up to nothing. -/
theorem lookup_none (st : Store) (k : Int)
    (h : ∀ x ∈ st, x.id ≠ k) : lookupRow st k = Option.none := by
  induction st with
  | nil => rfl
  | cons q qs ih =>
    rw [lookupRow, if_neg (h q (by simp))]
    exact ih (fun x hx => h x (by simp [hx]))

/-- Two id-ordered tables with the same lookups are equal. -/
theorem store_ext : ∀ (s1 s2 : Store), StoreSorted s1 → StoreSorted s2 →
    (∀ k, lookupRow s1 k = lookupRow s2 k) → s1 = s2 := by
  intro s1
  induction s1 with
  | nil =>
    intro s2 _ _ hk
    cases s2 with
    | nil => rfl
    | cons b bs =>
      have h := (hk b.id).symm
      simp [lookupRow] at h
  | cons a as ih =>
    intro s2 h1 h2 hk
    cases s2 with
    | nil =>
      have h := hk a.id
      simp [lookupRow] at h
    | cons b bs =>
      rw [StoreSorted, List.pairwise_cons] at h1 h2
      obtain ⟨ha, has⟩ := h1
      obtain ⟨hb, hbs⟩ := h2
      rcases lt_trichotomy a.id b.id with h3 | h3 | h3
      · exfalso
        have h := hk a.id
        rw [lookupRow, if_pos rfl, lookupRow,
            if_neg (show ¬ b.id = a.id by omega),
            lookup_none bs a.id (fun x hx => by have := hb x hx; omega)] at h
        exact absurd h (by simp)
      · have hab : a = b := by
          have h := hk a.id
          rw [lookupRow, if_pos rfl, lookupRow, if_pos h3.symm] at h
          injection h
        have htail : as = bs := by
          apply ih bs has hbs
          intro k
          rcases eq_or_ne k a.id with h4 | h4
          · rw [h4, lookup_none as a.id (fun x hx => by have := ha x hx; omega),
                lookup_none bs a.id (fun x hx => by have := hb x hx; omega)]
          · have h := hk k
            rw [lookupRow, if_neg (by omega : ¬ a.id = k), lookupRow,
                if_neg (by omega : ¬ b.id = k)] at h
            exact h
        rw [hab, htail]
      · exfalso
        have h := (hk b.id).symm
        rw [lookupRow, if_pos rfl, lookupRow,
            if_neg (show ¬ a.id = b.id by omega),
            lookup_none as b.id (fun x hx => by have := ha x hx; omega)] at h
        exact absurd h (by simp)

/-- Lookup through a batch of upserts: the last batched row with the key
wins, else the original table answers. -/
theorem lookup_applyRows : ∀ (rs : List PunchRow) (st : Store) (k : Int),
    lookupRow (applyRows st rs) k =
      match lastWith rs k with
      | Option.some q => Option.some q
      | Option.none => lookupRow st k := by
  intro rs
  induction rs with
  | nil => intro st k; rfl
  | cons r rs ih =>
    intro st k
    rw [show applyRows st (r :: rs) = applyRows (upsertRow st r) rs from rfl, ih]
    rw [show lastWith (r :: rs) k =
          (match lastWith rs k with
           | Option.some q => Option.some q
           | Option.none => if r.id = k then Option.some r else Option.none)
        from rfl]
    rcases hl : lastWith rs k with _ | q
    · rw [lookup_upsertRow]
      rcases eq_or_ne r.id k with h3 | h3
      · rw [if_pos h3, if_pos h3]
      · rw [if_neg h3, if_neg h3]
    · rfl

/-- A batch of upserts keeps the table ordered. -/
theorem sorted_applyRows : ∀ (rs : List PunchRow) (st : Store),
    StoreSorted st → StoreSorted (applyRows st rs) := by
  intro rs
  induction rs with
  | nil => intro st h; exact h
  | cons r rs ih =>
    intro st h
    exact ih (upsertRow st r) (sorted_upsertRow st r h)

/-- Replaying a batch of upserts changes nothing (on ordered tables). -/
theorem applyRows_idem (st : Store) (rs : List PunchRow)
    (h : StoreSorted st) :
    applyRows (applyRows st rs) rs = applyRows st rs := by
  apply store_ext
  · exact sorted_applyRows rs _ (sorted_applyRows rs st h)
  · exact sorted_applyRows rs st h
  · intro k
    rw [lookup_applyRows, lookup_applyRows]
    rcases hl : lastWith rs k with _ | q <;> simp [hl]

/-- On a keyed record, the save loop body is exactly an optional upsert
of the row described by `saveRow`. -/
theorem saveOne_keyed (st : Store) (p : PyVal) (now : Int)
    (h : keyedRec p) :
    saveOne st p now =
      (match saveRow p now with
       | Option.some r => upsertRow st r
       | Option.none => st,
       (saveRow p now).isSome) := by
  obtain ⟨⟨kvs, rfl⟩, n, hn⟩ := h
  rw [saveOne, saveRow]
  rcases resolveEmp (PyVal.dict kvs) with _ | emp
  · rfl
  · rw [hn]
    rfl

/-- On keyed records, the save loop is the batch of `saveRow` upserts. -/
theorem saveLoop_keyed (now : Int) : ∀ (ps : List PyVal) (st : Store) (saved : Nat),
    (∀ p ∈ ps, keyedRec p) →
    (saveLoop now st ps saved).1 =
      applyRows st (ps.filterMap (fun p => saveRow p now)) := by
  intro ps
  induction ps with
  | nil => intro st saved _; rfl
  | cons p ps ih =>
    intro st saved h
    have hp := h p (by simp)
    have hps : ∀ q ∈ ps, keyedRec q := fun q hq => h q (by simp [hq])
    have hstep : saveLoop now st (p :: ps) saved =
        match saveOne st p now with
        | (st2, true) => saveLoop now st2 ps (saved + 1)
        | (st2, false) => saveLoop now st2 ps saved := rfl
    rcases hr : saveRow p now with _ | r
    · have hsave : saveOne st p now = (st, false) := by
        rw [saveOne_keyed st p now hp, hr]
        rfl
      rw [hstep, hsave]
      have hfm : List.filterMap (fun q => saveRow q now) (p :: ps)
          = List.filterMap (fun q => saveRow q now) ps := by
        simp [List.filterMap_cons, hr]
      rw [hfm]
      exact ih st saved hps
    · have hsave : saveOne st p now = (upsertRow st r, true) := by
        rw [saveOne_keyed st p now hp, hr]
        rfl
      rw [hstep, hsave]
      have hfm : List.filterMap (fun q => saveRow q now) (p :: ps)
          = r :: List.filterMap (fun q => saveRow q now) ps := by
        simp [List.filterMap_cons, hr]
      rw [hfm, show applyRows st (r :: List.filterMap (fun q => saveRow q now) ps)
            = applyRows (upsertRow st r) (List.filterMap (fun q => saveRow q now) ps)
          from rfl]
      exact ih (upsertRow st r) (saved + 1) hps

/-- What the driver does with a fetch that returned: it hands back the
fetch result unchanged, and saves records plus watermark exactly when
`all_punches` is non-empty — independently of the outcome. -/
theorem perform_fetch_spec (up : Params → Nat → HttpResult) (useFull : Bool)
    (ui : Int) (ps mp : Nat) (st : Store) (w : Option Int) (now : Int)
    (s2 : SyncState) (fr : FetchResult)
    (h : perform_fetch up useFull ui ps mp ⟨st, w⟩ now = Except.ok (s2, fr)) :
    fetch_punches up (syncParams useFull ui ps) mp = Except.ok fr ∧
    (fr.punches = [] → s2 = ⟨st, w⟩) ∧
    (fr.punches ≠ [] →
      s2 = ⟨(save_punches st fr.punches now).1, Option.some now⟩) := by
  rw [perform_fetch] at h
  rcases hf : fetch_punches up (syncParams useFull ui ps) mp with e | fr2 <;>
      rw [hf] at h
  · exact absurd h (by simp)
  · replace h :
      (if fr2.punches.isEmpty then Except.ok ((⟨st, w⟩ : SyncState), fr2)
       else Except.ok
         (({ store := (save_punches st fr2.punches now).1,
             watermark := Option.some now } : SyncState), fr2)) =
        Except.ok (s2, fr) := h
    by_cases hie : fr2.punches.isEmpty
    · rw [if_pos hie] at h
      injection h with h2
      rw [Prod.mk.injEq] at h2
      obtain ⟨h3, h4⟩ := h2
      subst h4
      refine ⟨rfl, ?_, ?_⟩
      · intro _
        exact h3.symm
      · intro hne
        exact absurd (List.isEmpty_iff.1 hie) hne
    · rw [if_neg hie] at h
      injection h with h2
      rw [Prod.mk.injEq] at h2
      obtain ⟨h3, h4⟩ := h2
      subst h4
      refine ⟨rfl, ?_, ?_⟩
      · intro hemp
        exact absurd (List.isEmpty_iff.2 hemp) hie
      · intro _
        exact h3.symm

/-- C1 (amended): a sync that aborts with `network_error`, `http_error`
or `parse_error` leaves the store and the watermark untouched only when
zero records had been accumulated before the abort; when records were
accumulated, the driver merges them and advances the watermark exactly
as on a normal termination (src/app.py lines 436-440 branch only on
`all_punches` being non-empty, never on the termination reason). -/
theorem c1_abort_merge_policy (up : Params → Nat → HttpResult)
    (useFull : Bool) (ui : Int) (ps mp : Nat) (st : Store) (w : Option Int)
    (now : Int) (s2 : SyncState) (fr : FetchResult)
    (h : perform_fetch up useFull ui ps mp ⟨st, w⟩ now = Except.ok (s2, fr))
    (ha : abortOutcome fr.outcome) :
    (fr.punches = [] → s2 = ⟨st, w⟩) ∧
    (fr.punches ≠ [] →
      s2 = ⟨(save_punches st fr.punches now).1, Option.some now⟩) :=
  (perform_fetch_spec up useFull ui ps mp st w now s2 fr h).2

/-- C1 witness: an aborted sync with zero accumulated records leaves the
state unchanged. -/
theorem c1_abort_merge_policy_witness :
    ((([] : List PyVal) = [] → (⟨[], Option.none⟩ : SyncState) = ⟨[], Option.none⟩) ∧
     (([] : List PyVal) ≠ [] →
       (⟨[], Option.none⟩ : SyncState) =
         ⟨(save_punches [] [] 7).1, Option.some 7⟩)) :=
  c1_abort_merge_policy upAlwaysExn true 0 200 10 [] Option.none 7
    ⟨[], Option.none⟩ ⟨[], 1, Outcome.networkError⟩ rfl (Or.inl rfl)

/-- C1 counterexample: page 0 succeeds with one record, page 1 raises a
network error; the sync terminates with `network_error`, yet the record
is merged and the watermark advances from 50 to 777 — refuting the
claimed no-advance-on-abort behaviour. -/
theorem c1_watermark_advanced_on_abort :
    perform_fetch upNetAfterOne true 0 200 10 ⟨[], Option.some 50⟩ 777 =
      Except.ok
        (⟨[PunchRow.mk 1 PyVal.none PyVal.none PyVal.none PyVal.none
            (PyVal.dict [("id", PyVal.int 1)]) 777], Option.some 777⟩,
         ⟨[PyVal.dict [("id", PyVal.int 1)]], 2, Outcome.networkError⟩) ∧
    Option.some (777 : Int) ≠ Option.some 50 :=
  ⟨rfl, by simp⟩

/-- C2 (amended): an incremental sync sends the user-supplied
`lastUpdate` value upstream — not the stored watermark, which the
parameter construction never reads — and performs at least one HTTP
call even against a store with no watermark; no precondition check
exists anywhere in the code. -/
theorem c2_incremental_uses_ui_lastupdate (up : Params → Nat → HttpResult)
    (ui : Int) (ps mp : Nat) (st : Store) (now : Int) :
    syncParams false ui ps = ⟨ui, ps⟩ ∧
    (∀ (s2 : SyncState) (fr : FetchResult),
      perform_fetch up false ui ps mp ⟨st, Option.none⟩ now =
        Except.ok (s2, fr) → 1 ≤ fr.calls) := by
  constructor
  · rfl
  · intro s2 fr h
    have hf := (perform_fetch_spec up false ui ps mp st Option.none now s2 fr h).1
    have := fetchGo_calls_pos up (syncParams false ui ps) (mp - 1) 0 [] 0 fr hf
    omega

/-- C2 witness: a concrete incremental run against a store with no
watermark issues one HTTP call. -/
theorem c2_incremental_uses_ui_lastupdate_witness :
    syncParams false 5 200 = ⟨5, 200⟩ ∧ (1 : Nat) ≤ 1 := by
  have h := c2_incremental_uses_ui_lastupdate upProbeLastUpdate 5 200 10 [] 1000
  exact ⟨h.1, h.2 ⟨[], Option.none⟩ ⟨[], 1, Outcome.networkError⟩ rfl⟩

/-- C2 counterexample: the mock upstream raises exactly when it receives
`lastUpdate = 5`.  With the UI field at 5 and NO stored watermark, the
incremental sync reaches the upstream (1 HTTP call, not the claimed
zero) and the network branch fires, proving the request carried the UI
value; no `PreconditionError` exists — in full mode the same upstream
receives `lastUpdate = 0` and answers a last page. -/
theorem c2_no_precondition_counterexample :
    perform_fetch upProbeLastUpdate false 5 200 10 ⟨[], Option.none⟩ 1000 =
      Except.ok (⟨[], Option.none⟩, ⟨[], 1, Outcome.networkError⟩) ∧
    perform_fetch upProbeLastUpdate true 5 200 10 ⟨[], Option.none⟩ 1000 =
      Except.ok (⟨[], Option.none⟩,
        ⟨[], 1, Outcome.finished "last_flag_true"⟩) ∧
    (1 : Nat) ≠ 0 :=
  ⟨rfl, rfl, by decide⟩

/-- C3 (amended): a sync that terminates normally (`last_flag_true`,
`empty_content` or `max_pages_reached`) merges its records and sets the
watermark to the current wall-clock time only when at least one record
was accumulated; a successful run with zero records leaves both the
store and the watermark unchanged (`if all_punches:` on line 437 guards
both the merge and the watermark write). -/
theorem c3_normal_merge_policy (up : Params → Nat → HttpResult)
    (useFull : Bool) (ui : Int) (ps mp : Nat) (st : Store) (w : Option Int)
    (now : Int) (s2 : SyncState) (fr : FetchResult)
    (h : perform_fetch up useFull ui ps mp ⟨st, w⟩ now = Except.ok (s2, fr))
    (r : String) (hr : fr.outcome = Outcome.finished r) :
    (fr.punches ≠ [] →
      s2 = ⟨(save_punches st fr.punches now).1, Option.some now⟩) ∧
    (fr.punches = [] → s2 = ⟨st, w⟩) := by
  have h2 := (perform_fetch_spec up useFull ui ps mp st w now s2 fr h).2
  exact ⟨h2.2, h2.1⟩

/-- C3 witness: a normally terminating run with zero records leaves the
state unchanged. -/
theorem c3_normal_merge_policy_witness :
    ((([] : List PyVal) ≠ [] →
       (⟨[], Option.some 50⟩ : SyncState) =
         ⟨(save_punches [] [] 777).1, Option.some 777⟩) ∧
     (([] : List PyVal) = [] →
       (⟨[], Option.some 50⟩ : SyncState) = ⟨[], Option.some 50⟩)) :=
  c3_normal_merge_policy upEmptyFirst true 0 200 10 [] (Option.some 50) 777
    ⟨[], Option.some 50⟩ ⟨[], 1, Outcome.finished "empty_content"⟩ rfl
    "empty_content" rfl

/-- C3 counterexample: a successful sync whose single page is an empty
`content` list terminates normally with zero records, and the watermark
stays at 50 instead of being set to the current time 777 — refuting the
"including zero-record runs" part of the claim. -/
theorem c3_zero_record_no_watermark :
    perform_fetch upEmptyFirst true 0 200 10 ⟨[], Option.some 50⟩ 777 =
      Except.ok (⟨[], Option.some 50⟩,
        ⟨[], 1, Outcome.finished "empty_content"⟩) ∧
    Option.some (50 : Int) ≠ Option.some 777 :=
  ⟨rfl, by simp⟩

/-- C4: evaluation of the code at the failing input.  The claim (and the
code's own comment on src/app.py lines 219-220) intends a bare JSON-list
body to be used directly as the record list, but line 215 calls
`data.get("content")` on the list first, raising an uncaught
`AttributeError` that crashes the sync — the `isinstance(data, list)`
branch is dead code.  The crash propagates through `perform_fetch`, so
no records are stored. -/
theorem c4_list_body_crash :
    fetch_punches upListBody ⟨0, 200⟩ 10 = Except.error () ∧
    perform_fetch upListBody true 0 200 10 ⟨[], Option.none⟩ 1000 =
      Except.error () :=
  ⟨rfl, rfl⟩

/-- C5 (amended): a two-fetch stop with the empty reason (code string
`empty_content`, which the spec calls `empty_page`) happens when the
second page's `content` key holds an empty list: a successful non-last
first page with records followed by a page with `content = []` ends the
sync after exactly 2 HTTP calls with reason `empty_content`.  Pages that
yield zero records through any other shape do not trigger this stop
(see the counterexample). -/
theorem c5_second_page_empty_content (up : Params → Nat → HttpResult)
    (params : Params) (mp s0 s1 : Nat) (d0 d1 : List (String × PyVal))
    (h0 : up params 0 = HttpResult.resp s0 (Option.some (PyVal.dict d0)))
    (h0ok : s0 < 400)
    (h0last : isPyTrue (dget (PyVal.dict d0) "last") = false)
    (h0content : isEmptyList (dget (PyVal.dict d0) "content") = false)
    (h1 : up params 1 = HttpResult.resp s1 (Option.some (PyVal.dict d1)))
    (h1ok : s1 < 400)
    (h1last : isPyTrue (dget (PyVal.dict d1) "last") = false)
    (h1content : dget (PyVal.dict d1) "content" = PyVal.list [])
    (hmp : 2 ≤ mp) :
    fetch_punches up params mp =
      Except.ok ⟨extractRecords (PyVal.dict d0), 2,
        Outcome.finished "empty_content"⟩ := by
  obtain ⟨k, hk⟩ : ∃ k, mp - 1 = k + 1 := ⟨mp - 2, by omega⟩
  rw [fetch_punches, hk, fetchGo_succ, h0]
  have hstep0 : pageStep (HttpResult.resp s0 (Option.some (PyVal.dict d0)))
      = StepOut.next (extractRecords (PyVal.dict d0)) := by
    simp [pageStep, h0ok, h0last, h0content]
  simp only [hstep0, Nat.zero_add, List.nil_append]
  have hex : extractRecords (PyVal.dict d1) = [] := by
    rw [extractRecords, h1content]
  have hstep1 : pageStep (HttpResult.resp s1 (Option.some (PyVal.dict d1)))
      = StepOut.stop [] (Outcome.finished "empty_content") := by
    simp [pageStep, h1ok, h1last, h1content, hex, isEmptyList]
  cases k with
  | zero =>
    rw [fetchGo_zero, h1]
    simp only [hstep1]
    simp
  | succ k2 =>
    rw [fetchGo_succ, h1]
    simp only [hstep1]
    simp

/-- C5 witness: the `content`-shaped scenario stops after 2 fetches. -/
theorem c5_second_page_empty_content_witness :
    fetch_punches upContentThenEmpty ⟨0, 200⟩ 4 =
      Except.ok ⟨[PyVal.int 1], 2, Outcome.finished "empty_content"⟩ :=
  c5_second_page_empty_content upContentThenEmpty ⟨0, 200⟩ 4 200 200
    [("content", PyVal.list [PyVal.int 1])] [("content", PyVal.list [])]
    rfl (by omega) rfl rfl rfl (by omega) rfl rfl (by omega)

/-- C5 counterexample: records arrive under the `items` key; the second
page (and every later page) yields zero records with no `last` flag, yet
the sync does NOT stop after 2 fetches with the empty reason — the
empty-page check reads only the `content` key (src/app.py line 241), so
the loop runs to `max_pages = 4` and stops with `max_pages_reached`. -/
theorem c5_items_shape_counterexample :
    fetch_punches upItemsThenEmpty ⟨0, 200⟩ 4 =
      Except.ok ⟨[PyVal.int 1], 4, Outcome.finished "max_pages_reached"⟩ ∧
    (4 : Nat) ≠ 2 ∧ "max_pages_reached" ≠ "empty_content" :=
  ⟨rfl, by decide, by decide⟩

/-- C6 (amended): the code implements no `totalPages`-based termination
at all; `totalPages` is merely copied into the diagnostics metadata
(src/app.py lines 231-233).  Every normally terminating sync finishes
with one of the reasons `last_flag_true`, `empty_content`,
`max_pages_reached` — never a page-count reason. -/
theorem c6_no_total_pages_stop (up : Params → Nat → HttpResult)
    (params : Params) (mp : Nat) (fr : FetchResult)
    (h : fetch_punches up params mp = Except.ok fr)
    (r : String) (hr : fr.outcome = Outcome.finished r) :
    r = "last_flag_true" ∨ r = "empty_content" ∨ r = "max_pages_reached" :=
  fetchGo_reason up params (mp - 1) 0 [] 0 fr h r hr

/-- C6 witness: a concrete run ending with the last-page flag. -/
theorem c6_no_total_pages_stop_witness :
    "last_flag_true" = "last_flag_true" ∨ "last_flag_true" = "empty_content" ∨
      "last_flag_true" = "max_pages_reached" :=
  c6_no_total_pages_stop upOneLastPage ⟨0, 200⟩ 3
    ⟨[], 1, Outcome.finished "last_flag_true"⟩ rfl "last_flag_true" rfl

/-- C6 counterexample: every page reports `totalPages = 1` with no
`last` flag and non-empty `content`, so the claim predicts a stop after
page 0 (1 fetch) with reason `page_count_reached`; the code instead
fetches all 3 budgeted pages and stops with `max_pages_reached`. -/
theorem c6_total_pages_ignored_counterexample :
    fetch_punches upTotalPagesOne ⟨0, 200⟩ 3 =
      Except.ok ⟨[PyVal.int 0, PyVal.int 1, PyVal.int 2], 3,
        Outcome.finished "max_pages_reached"⟩ ∧
    (3 : Nat) ≠ 1 ∧ "max_pages_reached" ≠ "page_count_reached" :=
  ⟨rfl, by decide, by decide⟩

/-- C7: against an upstream that never signals a last page and never
returns an empty page (every page a successful dict with at least one
record and no boolean-`True` `last`), a sync with `maxPages = 5`
performs exactly 5 HTTP calls, stops with `max_pages_reached`, and the
accumulated records ARE merged with the watermark set to `now`; and in
general every fetch run that returns makes at most `maxPages` HTTP
calls (for the UI-enforced `maxPages ≥ 1`), the loop being structurally
terminating. -/
theorem c7_safety_bound (up : Params → Nat → HttpResult) (useFull : Bool)
    (ui : Int) (ps : Nat) (st : Store) (w : Option Int) (now : Int)
    (hgood : ∀ q, goodPage (up (syncParams useFull ui ps) q)) :
    (∃ rest, rest ≠ [] ∧
      perform_fetch up useFull ui ps 5 ⟨st, w⟩ now =
        Except.ok (⟨(save_punches st rest now).1, Option.some now⟩,
          ⟨rest, 5, Outcome.finished "max_pages_reached"⟩)) ∧
    (∀ (up2 : Params → Nat → HttpResult) (params2 : Params) (mp : Nat)
        (fr : FetchResult), 1 ≤ mp →
      fetch_punches up2 params2 mp = Except.ok fr → fr.calls ≤ mp) := by
  constructor
  · obtain ⟨rest, hne, heq⟩ :=
      fetchGo_good up (syncParams useFull ui ps) hgood 4 0 [] 0
    refine ⟨rest, hne, ?_⟩
    have hie : rest.isEmpty = false := by
      cases rest
      · exact absurd rfl hne
      · rfl
    rw [perform_fetch]
    rw [show fetch_punches up (syncParams useFull ui ps) 5 =
          fetchGo up (syncParams useFull ui ps) 4 0 [] 0 from rfl, heq]
    simp only [List.nil_append] at hie ⊢
    simp [hie]
  · intro up2 params2 mp fr hmp hfetch
    have := fetchGo_calls_le up2 params2 (mp - 1) 0 [] 0 fr hfetch
    omega

/-- C7 witness: the concrete never-ending upstream. -/
theorem c7_safety_bound_witness :
    (∃ rest, rest ≠ [] ∧
      perform_fetch upNeverEnds false 0 200 5 ⟨[], Option.none⟩ 99 =
        Except.ok (⟨(save_punches [] rest 99).1, Option.some 99⟩,
          ⟨rest, 5, Outcome.finished "max_pages_reached"⟩)) ∧
    (5 : Nat) ≤ 5 := by
  have h := c7_safety_bound upNeverEnds false 0 200 [] Option.none 99 ?_
  · refine ⟨h.1, ?_⟩
    exact h.2 upNeverEnds ⟨0, 200⟩ 5
      ⟨[PyVal.int 0, PyVal.int 1, PyVal.int 2, PyVal.int 3, PyVal.int 4], 5,
        Outcome.finished "max_pages_reached"⟩ (by omega) rfl
  · intro q
    exact ⟨200, [("content", PyVal.list [PyVal.int (q : Int)])], rfl,
      by omega, rfl, by simp [extractRecords, dget, lookupKey]⟩

/-- C10: the last-page check is `data.get("last") is True` — only the
boolean singleton stops the loop.  For a successful dict body whose
`last` value is anything else (the string `"true"`, the number 1,
`False`, or absent), the iteration never stops with reason
`last_flag_true`; it proceeds to the empty-`content` and `max_pages`
checks, and when neither fires the loop fetches the next page. -/
theorem c10_last_flag_strict (status : Nat) (kvs : List (String × PyVal))
    (hok : status < 400)
    (hlast : isPyTrue (dget (PyVal.dict kvs) "last") = false) :
    (∀ recs, pageStep (HttpResult.resp status (Option.some (PyVal.dict kvs))) ≠
        StepOut.stop recs (Outcome.finished "last_flag_true")) ∧
    (isEmptyList (dget (PyVal.dict kvs) "content") = false →
      pageStep (HttpResult.resp status (Option.some (PyVal.dict kvs))) =
        StepOut.next (extractRecords (PyVal.dict kvs))) ∧
    (∀ (up : Params → Nat → HttpResult) (params : Params) (fuel page : Nat)
        (acc : List PyVal) (calls : Nat),
      up params page = HttpResult.resp status (Option.some (PyVal.dict kvs)) →
      isEmptyList (dget (PyVal.dict kvs) "content") = false →
      fetchGo up params (fuel + 1) page acc calls =
        fetchGo up params fuel (page + 1)
          (acc ++ extractRecords (PyVal.dict kvs)) (calls + 1)) := by
  refine ⟨?_, ?_, ?_⟩
  · intro recs hcontra
    by_cases h2 : isEmptyList (dget (PyVal.dict kvs) "content")
    · simp [pageStep, hok, hlast, h2] at hcontra
    · simp [pageStep, hok, hlast, h2] at hcontra
  · intro h2
    simp [pageStep, hok, hlast, h2]
  · intro up params fuel page acc calls hup h2
    rw [fetchGo_succ, hup]
    have hstep : pageStep (HttpResult.resp status (Option.some (PyVal.dict kvs)))
        = StepOut.next (extractRecords (PyVal.dict kvs)) := by
      simp [pageStep, hok, hlast, h2]
    rw [hstep]

/-- C10 witness: a page carrying the string `"true"` in `last` plus one
record makes the loop fetch the next page. -/
theorem c10_last_flag_strict_witness :
    fetchGo upStringTrue ⟨0, 200⟩ 4 0 [] 0 =
      fetchGo upStringTrue ⟨0, 200⟩ 3 1 [PyVal.int 3] 1 := by
  have h := (c10_last_flag_strict 200
    [("last", PyVal.str "true"), ("content", PyVal.list [PyVal.int 3])]
    (by omega) rfl).2.2 upStringTrue ⟨0, 200⟩ 3 0 [] 0 rfl rfl
  exact h

/-- C8 (amended): the batch upsert is idempotent — including all stored
columns — for record sets whose records are dicts carrying an integer
`id`, at a fixed save timestamp and over any id-ordered initial table:
`INSERT OR REPLACE` keyed by `id` makes the replay rewrite identical
rows.  (Records lacking an `id` are assigned fresh SQLite rowids on
every save and so violate idempotence — see the counterexample — and
the `saved_at` column always carries the timestamp of the last save.) -/
theorem c8_upsert_idempotent_keyed (st : Store) (R : List PyVal) (now : Int)
    (hs : StoreSorted st) (hk : ∀ p ∈ R, keyedRec p) :
    (save_punches (save_punches st R now).1 R now).1 =
      (save_punches st R now).1 := by
  have h1 : (save_punches st R now).1 =
      applyRows st (R.filterMap (fun p => saveRow p now)) :=
    saveLoop_keyed now R st 0 hk
  calc (save_punches (save_punches st R now).1 R now).1
      = applyRows (save_punches st R now).1
          (R.filterMap (fun p => saveRow p now)) :=
        saveLoop_keyed now R _ 0 hk
    _ = applyRows (applyRows st (R.filterMap (fun p => saveRow p now)))
          (R.filterMap (fun p => saveRow p now)) := by rw [h1]
    _ = applyRows st (R.filterMap (fun p => saveRow p now)) :=
        applyRows_idem st _ hs
    _ = (save_punches st R now).1 := h1.symm

/-- C8 witness: replaying one keyed record on the empty table. -/
theorem c8_upsert_idempotent_keyed_witness :
    (save_punches (save_punches [] [PyVal.dict [("id", PyVal.int 1)]] 5).1
        [PyVal.dict [("id", PyVal.int 1)]] 5).1 =
      (save_punches [] [PyVal.dict [("id", PyVal.int 1)]] 5).1 := by
  apply c8_upsert_idempotent_keyed
  · exact List.Pairwise.nil
  · intro p hp
    simp only [List.mem_singleton] at hp
    subst hp
    exact ⟨⟨_, rfl⟩, 1, rfl⟩

/-- C8 counterexample: a record with no `id` is inserted with a fresh
auto-assigned rowid on every save (`INSERT OR REPLACE` with a NULL
`INTEGER PRIMARY KEY`), so upserting the same record set twice leaves
two rows where one save leaves one — refuting idempotence for arbitrary
record sets. -/
theorem c8_missing_id_counterexample :
    (save_punches (save_punches [] [PyVal.dict [("employeeId", PyVal.int 7)]] 5).1
        [PyVal.dict [("employeeId", PyVal.int 7)]] 5).1 ≠
      (save_punches [] [PyVal.dict [("employeeId", PyVal.int 7)]] 5).1 := by
  intro h
  have h2 := congrArg List.length h
  exact absurd h2 (by decide)

/-- C9 (amended): the stored `employeeId` follows Python's `or` chain,
which branches on truthiness rather than presence: the top-level
`employeeId` is stored when it is truthy (so a present but zero, null or
empty value falls through); otherwise the nested `employee.id` value is
stored (a falsy `employee` is replaced by an empty dict, yielding null);
the resulting value is written to the row keyed by the record's integer
id. -/
theorem c9_employee_resolution (kvs : List (String × PyVal)) (st : Store)
    (now : Int) :
    (pyTruthy (dget (PyVal.dict kvs) "employeeId") = true →
      resolveEmp (PyVal.dict kvs) =
        Except.ok (dget (PyVal.dict kvs) "employeeId")) ∧
    (pyTruthy (dget (PyVal.dict kvs) "employeeId") = false →
      ∀ ekvs, dget (PyVal.dict kvs) "employee" = PyVal.dict ekvs →
        resolveEmp (PyVal.dict kvs) =
          Except.ok (dget (PyVal.dict ekvs) "id")) ∧
    (pyTruthy (dget (PyVal.dict kvs) "employeeId") = false →
      pyTruthy (dget (PyVal.dict kvs) "employee") = false →
      resolveEmp (PyVal.dict kvs) = Except.ok PyVal.none) ∧
    (∀ (n : Int) (emp : PyVal), dget (PyVal.dict kvs) "id" = PyVal.int n →
      resolveEmp (PyVal.dict kvs) = Except.ok emp →
      saveOne st (PyVal.dict kvs) now =
        (upsertRow st
          (PunchRow.mk n emp (dget (PyVal.dict kvs) "date")
            (dget (PyVal.dict kvs) "status")
            (dget (PyVal.dict kvs) "lastModifiedDate") (PyVal.dict kvs) now),
         true)) := by
  refine ⟨?_, ?_, ?_, ?_⟩
  · intro h
    simp [resolveEmp, h]
  · intro h ekvs he
    by_cases ht : pyTruthy (dget (PyVal.dict kvs) "employee")
    · rw [he] at ht
      simp [resolveEmp, h, he, ht]
    · have hnil : ekvs = [] := by
        rw [he] at ht
        cases ekvs with
        | nil => rfl
        | cons a l => simp [pyTruthy] at ht
      subst hnil
      have hres : resolveEmp (PyVal.dict kvs) =
          Except.ok (dget (PyVal.dict []) "id") := by
        simp [resolveEmp, h, ht]
      exact hres
  · intro h hf
    have hres : resolveEmp (PyVal.dict kvs) =
        Except.ok (dget (PyVal.dict []) "id") := by
      simp [resolveEmp, h, hf]
    exact hres
  · intro n emp hn hre
    have hsave := saveOne_keyed st (PyVal.dict kvs) now ⟨⟨kvs, rfl⟩, n, hn⟩
    rw [hsave, saveRow, hre, hn]
    rfl

/-- C9 witness: a record with no top-level `employeeId` and a nested
`employee.id = 9` stores 9. -/
theorem c9_employee_resolution_witness :
    resolveEmp (PyVal.dict
        [("id", PyVal.int 2), ("employee", PyVal.dict [("id", PyVal.int 9)])]) =
      Except.ok (PyVal.int 9) ∧
    saveOne []
        (PyVal.dict
          [("id", PyVal.int 2), ("employee", PyVal.dict [("id", PyVal.int 9)])])
        3 =
      (upsertRow []
        (PunchRow.mk 2 (PyVal.int 9) PyVal.none PyVal.none PyVal.none
          (PyVal.dict
            [("id", PyVal.int 2), ("employee", PyVal.dict [("id", PyVal.int 9)])])
          3),
       true) := by
  have h := c9_employee_resolution
    [("id", PyVal.int 2), ("employee", PyVal.dict [("id", PyVal.int 9)])] [] 3
  refine ⟨?_, ?_⟩
  · exact h.2.1 rfl [("id", PyVal.int 9)] rfl
  · exact h.2.2.2 2 (PyVal.int 9) rfl (h.2.1 rfl [("id", PyVal.int 9)] rfl)

/-- C9 counterexample: a record with top-level `employeeId = 0` —
present, but falsy in Python — and nested `employee.id = 7` stores 7,
not the present top-level value 0, refuting "whenever it is present". -/
theorem c9_zero_employee_id_counterexample :
    (save_punches []
        [PyVal.dict [("id", PyVal.int 1), ("employeeId", PyVal.int 0),
          ("employee", PyVal.dict [("id", PyVal.int 7)])]] 99).1 =
      [PunchRow.mk 1 (PyVal.int 7) PyVal.none PyVal.none PyVal.none
        (PyVal.dict [("id", PyVal.int 1), ("employeeId", PyVal.int 0),
          ("employee", PyVal.dict [("id", PyVal.int 7)])]) 99] ∧
    PyVal.int 7 ≠ PyVal.int 0 :=
  ⟨rfl, by simp⟩
